import Mathlib

/-!
Shallow embedding of the `cammo1123/lox` interpreters (tree-walking
interpreter plus bytecode compiler and stack VM), translated from the Rust
sources under `src/src/`.  Machine floats (`OrderedFloat<f64>` on the tree-walk
side, `f64` on the VM side) are modelled by `Rat`; no claim checked here
depends on floating-point rounding.  Shared mutable environments
(`Arc<Mutex<Environment>>`) are modelled by an explicit heap of environments
addressed by `Nat` indices, and `&mut self` methods become explicit state
passing.  Recursion in the evaluator and parser is bounded by an explicit
fuel parameter; running out of fuel yields a distinguished artificial error
that no theorem below relies on.
-/

set_option autoImplicit false

namespace Lox

/-- src/token.rs `TokenType`: the token kinds, with the source's names. -/
inductive TokenType where
  | LeftParen | RightParen | LeftBrace | RightBrace
  | Comma | Dot | Minus | Plus | SemiColon | Slash | Star
  | Bang | BangEqual
  | Equal | EqualEqual
  | Greater | GreaterEqual
  | Less | LessEqual
  | Identifier | String | Number
  | And | Class | Else | False | Fun | For | If | Nil | Or
  | Print | Return | Super | This | True | Var | While
  | EOF
  deriving DecidableEq, Repr

/-- The literal payload of a token (src/token.rs stores it as an `Object`).
The scanner and parser only ever produce strings, numbers, booleans and nil
here — never callables — so we give the literal its own non-recursive type to
keep `Token` and the AST out of the mutual knot with runtime callables.
`f64` is modelled by `Rat`. -/
inductive LitValue where
  | String (s : String)
  | Number (n : Rat)
  | Bool (b : Bool)
  | Nil
  deriving DecidableEq, Repr

/-- src/token.rs `Token`. -/
structure Token where
  token_type : TokenType
  lexeme : String
  line : Nat
  literal : LitValue
  deriving DecidableEq, Repr

/-- Modelled from the spec: `Token::dummy()` is called by
src/environment.rs but is not defined in src/token.rs; following the
synthesized tokens built in src/error.rs and src/interpreter.rs it is an EOF
token with empty lexeme on line 0. -/
def Token.dummy : Token := ⟨TokenType.EOF, "", 0, LitValue.Nil⟩

/-- Modelled from the spec: the expression AST (`ExprKind`: a closed sum over
`Literal, Grouping, Unary, Binary, Logical, Variable, Assign, Call` plus the
source's placeholder `Nil` variant).  The defining module (`expr`) is not
under src/, but every variant and its fields appear in its callers
src/parser.rs, src/interpreter.rs and src/resolver.rs, whose shapes this
type copies. -/
inductive Expr where
  | Assign (name : Token) (value : Expr)
  | Binary (left : Expr) (operator : Token) (right : Expr)
  | Call (callee : Expr) (paren : Token) (arguments : List Expr)
  | Grouping (expression : Expr)
  | Literal (value : LitValue)
  | Logical (left : Expr) (operator : Token) (right : Expr)
  | Unary (operator : Token) (right : Expr)
  | Variable (name : Token)
  | Nil
  deriving Repr

/-- Modelled from the spec: the statement AST (`StmtKind`: `Expression, Print,
Var, Block, If, While, Function, Return` plus the placeholder `Nil`), with the
fields its callers in src/parser.rs and src/interpreter.rs use. -/
inductive Stmt where
  | Block (statements : List Stmt)
  | Expression (expression : Expr)
  | Function (name : Token) (params : List Token) (body : List Stmt)
  | If (condition : Expr) (then_branch : Stmt) (else_branch : Stmt)
  | Print (expression : Expr)
  | Return (keyword : Token) (value : Expr)
  | Var (name : Token) (initializer : Expr)
  | While (condition : Expr) (body : Stmt)
  | Nil
  deriving Repr

mutual

/-- Structural equality on expressions, mirroring the derived `PartialEq`
the resolver's `HashMap<Expr, usize>` relies on. -/
def Expr.beq : Expr → Expr → Bool
  | .Assign n1 v1, .Assign n2 v2 => n1 == n2 && Expr.beq v1 v2
  | .Binary l1 o1 r1, .Binary l2 o2 r2 =>
      Expr.beq l1 l2 && o1 == o2 && Expr.beq r1 r2
  | .Call c1 p1 a1, .Call c2 p2 a2 =>
      Expr.beq c1 c2 && p1 == p2 && Expr.beqList a1 a2
  | .Grouping e1, .Grouping e2 => Expr.beq e1 e2
  | .Literal v1, .Literal v2 => v1 == v2
  | .Logical l1 o1 r1, .Logical l2 o2 r2 =>
      Expr.beq l1 l2 && o1 == o2 && Expr.beq r1 r2
  | .Unary o1 r1, .Unary o2 r2 => o1 == o2 && Expr.beq r1 r2
  | .Variable n1, .Variable n2 => n1 == n2
  | .Nil, .Nil => true
  | _, _ => false

def Expr.beqList : List Expr → List Expr → Bool
  | [], [] => true
  | e1 :: r1, e2 :: r2 => Expr.beq e1 e2 && Expr.beqList r1 r2
  | _, _ => false

end

/-- The concrete callables: the native clock (src/interpreter.rs
`NativeClock`) and user functions (src/lox_function.rs `LoxFunction`).  A
`LoxFunction` stores its declaration and the heap index of its captured
closure environment. -/
inductive CallableObj where
  | clock
  | loxFunction (declaration : Stmt) (closure : Nat)

/-- src/object.rs `Object`. -/
inductive Object where
  | String (s : String)
  | Number (n : Rat)
  | Bool (b : Bool)
  | Callable (c : CallableObj)
  | Nil

/-- src/environment.rs `Environment`: `enclosing` is an optional heap index,
`values` a string-keyed map modelled as an association list. -/
structure EnvData where
  enclosing : Option Nat
  values : List (String × Object)

/-- The arena of all environments ever allocated; an
`Arc<Mutex<Environment>>` is a `Nat` index into it. -/
abbrev Heap := List EnvData

/-- Dereference a heap index.  Indices used by the interpreter are always in
bounds; the default (an empty, parentless environment) is never reached by
any theorem below. -/
def heapGet (h : Heap) (i : Nat) : EnvData := h.getD i ⟨none, []⟩

def heapSet (h : Heap) (i : Nat) (e : EnvData) : Heap := h.set i e

/-- `HashMap::get` on the association-list model. -/
def mapGet (m : List (String × Object)) (k : String) : Option Object :=
  match m with
  | [] => none
  | (k', v) :: rest => if k' = k then some v else mapGet rest k

/-- `HashMap::insert` (overwrites an existing key). -/
def mapInsert (m : List (String × Object)) (k : String) (v : Object) :
    List (String × Object) :=
  match m with
  | [] => [(k, v)]
  | (k', v') :: rest =>
      if k' = k then (k, v) :: rest else (k', v') :: mapInsert rest k v

def mapContains (m : List (String × Object)) (k : String) : Bool :=
  (mapGet m k).isSome

/-- src/error.rs `InterpreterError`: a runtime error or the `Return`
nonlocal-exit value. -/
inductive IErr where
  | Runtime (token : Token) (message : String)
  | Return (value : Object)

/-- src/environment.rs `Environment::define`. -/
def Environment.define (h : Heap) (env : Nat) (name : String) (v : Object) :
    Heap :=
  let e := heapGet h env
  heapSet h env { e with values := mapInsert e.values name v }

/-- The loop of `Environment::ancestor`: follow `enclosing` `distance` more
times starting from the environment already reached. -/
def ancestorGo (h : Heap) : Nat → Nat → Except IErr Nat
  | 0, env => .ok env
  | d + 1, env =>
      match (heapGet h env).enclosing with
      | some e => ancestorGo h d e
      | none =>
          .error (.Runtime Token.dummy
            "No enclosing environment at requested distance.")

/-- src/environment.rs `Environment::ancestor`.  Note that it starts from
`self.enclosing` — not from `self` — and then walks `distance` further
steps, so it reaches the `distance + 1`-th ancestor of `env`. -/
def Environment.ancestor (h : Heap) (env : Nat) (distance : Nat) :
    Except IErr Nat :=
  match (heapGet h env).enclosing with
  | some e => ancestorGo h distance e
  | none => .error (.Runtime Token.dummy "No enclosing environment.")

/-- src/environment.rs `Environment::get_at`. -/
def Environment.get_at (h : Heap) (env : Nat) (distance : Nat)
    (name : String) : Except IErr Object :=
  match Environment.ancestor h env distance with
  | .error e => .error e
  | .ok a =>
      match mapGet (heapGet h a).values name with
      | some v => .ok v
      | none =>
          .error (.Runtime Token.dummy
            ("Undefined variable '" ++ name ++ "'."))

/-- src/environment.rs `Environment::assign_at`. -/
def Environment.assign_at (h : Heap) (env : Nat) (distance : Nat)
    (name : Token) (v : Object) : Except IErr Heap :=
  match Environment.ancestor h env distance with
  | .error e => .error e
  | .ok a =>
      let e := heapGet h a
      .ok (heapSet h a { e with values := mapInsert e.values name.lexeme v })

/-- src/environment.rs `Environment::get`: walk the `enclosing` chain.  The
chain length is bounded by the heap size, which bounds the fuel. -/
def envGetGo (h : Heap) : Nat → Nat → Token → Except IErr Object
  | 0, _, name =>
      .error (.Runtime name "environment chain exhausted")
  | fuel + 1, env, name =>
      match mapGet (heapGet h env).values name.lexeme with
      | some v => .ok v
      | none =>
          match (heapGet h env).enclosing with
          | some e => envGetGo h fuel e name
          | none =>
              .error (.Runtime name
                ("Undefined variable '" ++ name.lexeme ++ "'."))

def Environment.get (h : Heap) (env : Nat) (name : Token) :
    Except IErr Object :=
  envGetGo h (h.length + 1) env name

/-- src/environment.rs `Environment::assign`: walk the `enclosing` chain and
overwrite the first binding found. -/
def envAssignGo (h : Heap) : Nat → Nat → Token → Object → Except IErr Heap
  | 0, _, name, _ =>
      .error (.Runtime name "environment chain exhausted")
  | fuel + 1, env, name, v =>
      let e := heapGet h env
      if mapContains e.values name.lexeme then
        .ok (heapSet h env { e with values := mapInsert e.values name.lexeme v })
      else
        match e.enclosing with
        | some enc => envAssignGo h fuel enc name v
        | none =>
            .error (.Runtime name
              ("Undefined variable '" ++ name.lexeme ++ "'."))

def Environment.assign (h : Heap) (env : Nat) (name : Token) (v : Object) :
    Except IErr Heap :=
  envAssignGo h (h.length + 1) env name v

/-- src/resolver.rs `Resolver::resolve_local`: scan the scope stack from the
innermost (last) scope outward; on the first scope containing the name at
index `i`, record depth `scopes.len() - 1 - i`.  Scanning the reversed stack,
the depth is the number of scopes skipped before the hit. -/
def resolveDepthGo (name : String) : List (List (String × Bool)) → Option Nat
  | [] => none
  | scope :: rest =>
      if (scope.find? (fun p => p.1 = name)).isSome then some 0
      else (resolveDepthGo name rest).map (· + 1)

def resolveLocalDepth (scopes : List (List (String × Bool)))
    (name : String) : Option Nat :=
  resolveDepthGo name scopes.reverse

/-- The interpreter's state: the environment arena, the indices of the
`globals` and current `environment` fields, the resolver's `locals` map and
the stdout lines produced so far (src/interpreter.rs `Interpreter`). -/
structure InterpState where
  heap : Heap
  globals : Nat
  environment : Nat
  locals : List (Expr × Nat)
  output : List String

/-- `HashMap<Expr, usize>::get` on the locals map. -/
def localsGet (m : List (Expr × Nat)) (e : Expr) : Option Nat :=
  match m with
  | [] => none
  | (e', d) :: rest => if Expr.beq e' e then some d else localsGet rest e

/-- src/interpreter.rs `Interpreter::look_up_variable`. -/
def lookUpVariable (st : InterpState) (name : Token) (e : Expr) :
    Except IErr Object :=
  match localsGet st.locals e with
  | some distance =>
      Environment.get_at st.heap st.environment distance name.lexeme
  | none => Environment.get st.heap st.globals name

mutual

/-- Structural equality on statements, mirroring the derived `PartialEq`
(used only through `callableEq` below). -/
def Stmt.beq : Stmt → Stmt → Bool
  | .Block s1, .Block s2 => Stmt.beqList s1 s2
  | .Expression e1, .Expression e2 => Expr.beq e1 e2
  | .Function n1 p1 b1, .Function n2 p2 b2 =>
      n1 == n2 && p1 == p2 && Stmt.beqList b1 b2
  | .If c1 t1 e1, .If c2 t2 e2 =>
      Expr.beq c1 c2 && Stmt.beq t1 t2 && Stmt.beq e1 e2
  | .Print e1, .Print e2 => Expr.beq e1 e2
  | .Return k1 v1, .Return k2 v2 => k1 == k2 && Expr.beq v1 v2
  | .Var n1 i1, .Var n2 i2 => n1 == n2 && Expr.beq i1 i2
  | .While c1 b1, .While c2 b2 => Expr.beq c1 c2 && Stmt.beq b1 b2
  | .Nil, .Nil => true
  | _, _ => false

def Stmt.beqList : List Stmt → List Stmt → Bool
  | [], [] => true
  | s1 :: r1, s2 :: r2 => Stmt.beq s1 s2 && Stmt.beqList r1 r2
  | _, _ => false

end

/-- src/object.rs compares `Callable`s by `Arc::ptr_eq`.  Pointer identity is
not representable in the embedding, so callables compare structurally; no
claim checked here compares two callables. -/
def callableEq : CallableObj → CallableObj → Bool
  | .clock, .clock => true
  | .loxFunction d1 c1, .loxFunction d2 c2 => Stmt.beq d1 d2 && c1 == c2
  | _, _ => false

/-- src/object.rs `impl PartialEq for Object`. -/
def objectEq : Object → Object → Bool
  | .String a, .String b => a == b
  | .Number a, .Number b => a == b
  | .Bool a, .Bool b => a == b
  | .Nil, .Nil => true
  | .Callable a, .Callable b => callableEq a b
  | _, _ => false

/-- src/interpreter.rs `Interpreter::is_truthy`. -/
def isTruthy : Object → Bool
  | .Nil => false
  | .Bool b => b
  | _ => true

/-- src/interpreter.rs `Interpreter::is_equal`. -/
def isEqual (a b : Object) : Bool :=
  match a, b with
  | .Nil, .Nil => true
  | .Nil, _ => false
  | _, _ => objectEq a b

/-- lox_function.rs `LoxFunction::arity` and `NativeClock::arity`. -/
def CallableObj.arity : CallableObj → Nat
  | .clock => 0
  | .loxFunction d _ =>
      match d with
      | Stmt.Function _ params _ => params.length
      | _ => 0

/-- The literal stored in an AST node, as the `Object` the interpreter's
`visit_literal_expr` clones out of it. -/
def LitValue.toObject : LitValue → Object
  | .String s => .String s
  | .Number n => .Number n
  | .Bool b => .Bool b
  | .Nil => .Nil

/-- Rust's `Display` for `f64` prints integral values without a decimal
point.  With `Rat` standing in for `f64`, an integral rational prints as its
integer; no claim checked here prints a non-integral number. -/
def numberToString (q : Rat) : String :=
  if q.den = 1 then toString q.num else toString q

/-- src/object.rs `impl fmt::Display for Object` — note the quotation marks
written around strings. -/
def displayObject : Object → String
  | .String s => "\"" ++ s ++ "\""
  | .Number n => numberToString n
  | .Bool b => if b then "true" else "false"
  | .Callable _ => "<callable>"
  | .Nil => "nil"

/-- src/interpreter.rs `Interpreter::stringify`. -/
def stringify : Object → String
  | .Nil => "nil"
  | o => displayObject o

/-- src/interpreter.rs `Interpreter::check_number_operand`. -/
def checkNumberOperand (operator : Token) (operand : Object) :
    Except IErr Unit :=
  match operand with
  | .Number _ => .ok ()
  | _ => .error (.Runtime operator "Operand must be a number.")

/-- src/interpreter.rs `Interpreter::check_number_operands`. -/
def checkNumberOperands (operator : Token) (o1 o2 : Object) :
    Except IErr Unit :=
  match checkNumberOperand operator o1 with
  | .error e => .error e
  | .ok _ => checkNumberOperand operator o2

/-- src/interpreter.rs `visit_binary_expr`, after both operands have been
evaluated.  The `unreachable!()` arms of the source (a non-number surviving
`check_number_operands`) are modelled by an error that no execution
reaches.  `Rat` division stands in for `f64` division (no claim divides). -/
def binaryOp (operator : Token) (left right : Object) : Except IErr Object :=
  match operator.token_type with
  | .Plus =>
      match left, right with
      | .Number l, .Number r => .ok (.Number (l + r))
      | .String l, .String r => .ok (.String (l ++ r))
      | _, _ =>
          .error (.Runtime operator
            "Operands must be two numbers or two strings.")
  | .Minus =>
      match checkNumberOperands operator left right with
      | .error e => .error e
      | .ok _ =>
          match left, right with
          | .Number l, .Number r => .ok (.Number (l - r))
          | _, _ => .error (.Runtime operator "unreachable")
  | .Slash =>
      match checkNumberOperands operator left right with
      | .error e => .error e
      | .ok _ =>
          match left, right with
          | .Number l, .Number r => .ok (.Number (l / r))
          | _, _ => .error (.Runtime operator "unreachable")
  | .Star =>
      match checkNumberOperands operator left right with
      | .error e => .error e
      | .ok _ =>
          match left, right with
          | .Number l, .Number r => .ok (.Number (l * r))
          | _, _ => .error (.Runtime operator "unreachable")
  | .Greater =>
      match checkNumberOperands operator left right with
      | .error e => .error e
      | .ok _ =>
          match left, right with
          | .Number l, .Number r => .ok (.Bool (decide (l > r)))
          | _, _ => .error (.Runtime operator "unreachable")
  | .GreaterEqual =>
      match checkNumberOperands operator left right with
      | .error e => .error e
      | .ok _ =>
          match left, right with
          | .Number l, .Number r => .ok (.Bool (decide (l ≥ r)))
          | _, _ => .error (.Runtime operator "unreachable")
  | .Less =>
      match checkNumberOperands operator left right with
      | .error e => .error e
      | .ok _ =>
          match left, right with
          | .Number l, .Number r => .ok (.Bool (decide (l < r)))
          | _, _ => .error (.Runtime operator "unreachable")
  | .LessEqual =>
      match checkNumberOperands operator left right with
      | .error e => .error e
      | .ok _ =>
          match left, right with
          | .Number l, .Number r => .ok (.Bool (decide (l ≤ r)))
          | _, _ => .error (.Runtime operator "unreachable")
  | .BangEqual => .ok (.Bool (!(isEqual left right)))
  | .EqualEqual => .ok (.Bool (isEqual left right))
  | _ => .ok .Nil

/-- src/interpreter.rs `visit_unary_expr`, after the operand has been
evaluated: `!` negates truthiness; `-` on a non-number silently yields
`Nil` (the source has no error branch there); any other operator yields
`Nil`. -/
def unaryOp (operator : Token) (right : Object) : Object :=
  match operator.token_type with
  | .Bang => .Bool (!(isTruthy right))
  | .Minus =>
      match right with
      | .Number n => .Number (-n)
      | _ => .Nil
  | _ => .Nil

/-- lox_function.rs `LoxFunction::call`'s parameter-binding loop: define each
parameter to `arguments.get(i).cloned().unwrap_or(Nil)` in the fresh
environment's map. -/
def bindParams : List Token → List Object → List (String × Object) →
    List (String × Object)
  | [], _, m => m
  | p :: ps, [], m => bindParams ps [] (mapInsert m p.lexeme Object.Nil)
  | p :: ps, a :: rest, m => bindParams ps rest (mapInsert m p.lexeme a)

/-- `format!("Expected {} arguments but got {}.", arity, len)`. -/
def arityMessage (arity got : Nat) : String :=
  "Expected " ++ toString arity ++ " arguments but got " ++ toString got ++ "."

/-- The artificial fuel-exhaustion error; no theorem below depends on a run
that exhausts its fuel. -/
def fuelErr : IErr := .Runtime Token.dummy "out of fuel"

mutual

/-- src/interpreter.rs `expr::Visitor<Object> for Interpreter`
(`Interpreter::evaluate`): big-step evaluation of an expression, returning
the result (or error) together with the mutated interpreter state. -/
def evalExpr : Nat → InterpState → Expr → (Except IErr Object) × InterpState
  | 0, st, _ => (.error fuelErr, st)
  | fuel + 1, st, e =>
    match e with
    | .Literal v => (.ok v.toObject, st)
    | .Grouping inner => evalExpr fuel st inner
    | .Unary operator right =>
        match evalExpr fuel st right with
        | (.error err, st') => (.error err, st')
        | (.ok rv, st') => (.ok (unaryOp operator rv), st')
    | .Binary left operator right =>
        match evalExpr fuel st left with
        | (.error err, st') => (.error err, st')
        | (.ok lv, st1) =>
            match evalExpr fuel st1 right with
            | (.error err, st') => (.error err, st')
            | (.ok rv, st2) => (binaryOp operator lv rv, st2)
    | .Variable name => (lookUpVariable st name (.Variable name), st)
    | .Assign name value =>
        match evalExpr fuel st value with
        | (.error err, st') => (.error err, st')
        | (.ok v, st1) =>
            match localsGet st1.locals (.Assign name value) with
            | some distance =>
                match Environment.assign_at st1.heap st1.environment distance
                    name v with
                | .error err => (.error err, st1)
                | .ok h' => (.ok v, { st1 with heap := h' })
            | none =>
                match Environment.assign st1.heap st1.globals name v with
                | .error err => (.error err, st1)
                | .ok h' => (.ok v, { st1 with heap := h' })
    | .Logical left operator right =>
        match evalExpr fuel st left with
        | (.error err, st') => (.error err, st')
        | (.ok lv, st1) =>
            if operator.token_type == TokenType.Or then
              if isTruthy lv then (.ok lv, st1) else evalExpr fuel st1 right
            else
              if !(isTruthy lv) then (.ok lv, st1) else evalExpr fuel st1 right
    | .Call callee paren arguments =>
        match evalExpr fuel st callee with
        | (.error err, st') => (.error err, st')
        | (.ok calleeV, st1) =>
            match evalArgs fuel st1 arguments with
            | (.error err, st') => (.error err, st')
            | (.ok argVs, st2) =>
                match calleeV with
                | .Callable c =>
                    if arguments.length ≠ c.arity then
                      (.error (.Runtime paren
                        (arityMessage c.arity arguments.length)), st2)
                    else
                      callCallable fuel st2 c argVs
                | _ =>
                    (.error (.Runtime paren
                      "Can only call functions and classes."), st2)
    | .Nil => (.error (.Runtime Token.dummy "unreachable"), st)

/-- The argument loop of `visit_call_expr`: evaluate the argument
expressions left to right, collecting their values. -/
def evalArgs : Nat → InterpState → List Expr →
    (Except IErr (List Object)) × InterpState
  | 0, st, _ => (.error fuelErr, st)
  | _ + 1, st, [] => (.ok [], st)
  | fuel + 1, st, a :: rest =>
      match evalExpr fuel st a with
      | (.error err, st') => (.error err, st')
      | (.ok v, st1) =>
          match evalArgs fuel st1 rest with
          | (.error err, st') => (.error err, st')
          | (.ok vs, st2) => (.ok (v :: vs), st2)

/-- `Callable::call`: `NativeClock::call` reads the wall clock (outside the
model, returned as the number 0 — no claim depends on it);
`LoxFunction::call` builds a fresh environment on the captured closure,
binds the parameters, runs the body as a block, and turns a `Return`
unwinding into the call's value. -/
def callCallable : Nat → InterpState → CallableObj → List Object →
    (Except IErr Object) × InterpState
  | 0, st, _, _ => (.error fuelErr, st)
  | fuel + 1, st, c, arguments =>
      match c with
      | .clock => (.ok (.Number 0), st)
      | .loxFunction decl closure =>
          let values :=
            match decl with
            | Stmt.Function _ params _ => bindParams params arguments []
            | _ => []
          let body :=
            match decl with
            | Stmt.Function _ _ b => b
            | _ => []
          let envId := st.heap.length
          let st1 := { st with heap := st.heap ++ [⟨some closure, values⟩] }
          match execBlock fuel st1 body envId with
          | (.ok _, st') => (.ok Object.Nil, st')
          | (.error (.Return v), st') => (.ok v, st')
          | (.error e, st') => (.error e, st')

/-- src/interpreter.rs `stmt::Visitor<()> for Interpreter`
(`Interpreter::execute`). -/
def execStmt : Nat → InterpState → Stmt → (Except IErr Unit) × InterpState
  | 0, st, _ => (.error fuelErr, st)
  | fuel + 1, st, s =>
    match s with
    | .Expression e =>
        match evalExpr fuel st e with
        | (.error err, st') => (.error err, st')
        | (.ok _, st') => (.ok (), st')
    | .Print e =>
        match evalExpr fuel st e with
        | (.error err, st') => (.error err, st')
        | (.ok v, st') =>
            (.ok (), { st' with output := st'.output ++ [stringify v] })
    | .Var name initializer =>
        match (match initializer with
               | Expr.Nil =>
                   ((.ok Object.Nil, st) : (Except IErr Object) × InterpState)
               | _ => evalExpr fuel st initializer) with
        | (.error err, st') => (.error err, st')
        | (.ok v, st') =>
            (.ok (), { st' with
              heap := Environment.define st'.heap st'.environment
                name.lexeme v })
    | .Block statements =>
        let envId := st.heap.length
        let st1 := { st with heap := st.heap ++ [⟨some st.environment, []⟩] }
        execBlock fuel st1 statements envId
    | .If condition then_branch else_branch =>
        match evalExpr fuel st condition with
        | (.error err, st') => (.error err, st')
        | (.ok c, st1) =>
            if isTruthy c then execStmt fuel st1 then_branch
            else
              match else_branch with
              | Stmt.Nil => (.ok (), st1)
              | eb => execStmt fuel st1 eb
    | .While condition body =>
        match evalExpr fuel st condition with
        | (.error err, st') => (.error err, st')
        | (.ok c, st1) =>
            if isTruthy c then
              match execStmt fuel st1 body with
              | (.error err, st') => (.error err, st')
              | (.ok _, st2) => execStmt fuel st2 (Stmt.While condition body)
            else (.ok (), st1)
    | .Function name params body =>
        let f := CallableObj.loxFunction (Stmt.Function name params body)
          st.environment
        (.ok (), { st with
          heap := Environment.define st.heap st.environment name.lexeme
            (Object.Callable f) })
    | .Return _ value =>
        match (match value with
               | Expr.Nil =>
                   ((.ok Object.Nil, st) : (Except IErr Object) × InterpState)
               | _ => evalExpr fuel st value) with
        | (.error err, st') => (.error err, st')
        | (.ok v, st') => (.error (.Return v), st')
    | .Nil => (.error (.Runtime Token.dummy "unreachable"), st)

/-- The statement loop inside `Interpreter::execute_block`. -/
def execSeq : Nat → InterpState → List Stmt → (Except IErr Unit) × InterpState
  | 0, st, _ => (.error fuelErr, st)
  | _ + 1, st, [] => (.ok (), st)
  | fuel + 1, st, s :: rest =>
      match execStmt fuel st s with
      | (.error err, st') => (.error err, st')
      | (.ok _, st') => execSeq fuel st' rest

/-- src/interpreter.rs `Interpreter::execute_block`: remember the previous
environment, switch to the given one, run the statements, and restore the
previous environment both on error (including `Return` unwinding) and on
normal completion. -/
def execBlock : Nat → InterpState → List Stmt → Nat →
    (Except IErr Unit) × InterpState
  | 0, st, _, _ => (.error fuelErr, st)
  | fuel + 1, st, statements, envId =>
      let prev := st.environment
      match execSeq fuel { st with environment := envId } statements with
      | (.error err, st') => (.error err, { st' with environment := prev })
      | (.ok _, st') => (.ok (), { st' with environment := prev })

end

/-- src/interpreter.rs `Interpreter::interpret`: run the statements in
order; the first error is reported (stderr diagnostics are outside the
model; the returned flag is `HAD_RUNTIME_ERROR`) and stops the run. -/
def interpret (fuel : Nat) (st : InterpState) :
    List Stmt → InterpState × Bool
  | [] => (st, false)
  | s :: rest =>
      match execStmt fuel st s with
      | (.ok _, st') => interpret fuel st' rest
      | (.error _, st') => (st', true)

/-- src/interpreter.rs `Interpreter::new`: globals hold the native `clock`;
the current environment starts as the globals; no locals resolved yet. -/
def initialState : InterpState :=
  { heap := [⟨none, [("clock", Object.Callable CallableObj.clock)]⟩],
    globals := 0, environment := 0, locals := [], output := [] }

/- ----------------------------------------------------------------------
C1: claimed: a reference the resolver recorded at depth d is read d levels
above the current environment, with d = 0 meaning the current environment
itself.
---------------------------------------------------------------------- -/

/-- A two-environment heap: index 0 is the global scope (empty), index 1 a
block environment enclosing-linked to it, holding `a = 1`. -/
def c1Heap : Heap :=
  [⟨none, []⟩, ⟨some 0, [("a", Object.Number 1)]⟩]

def c1VarToken : Token := ⟨TokenType.Identifier, "a", 1, LitValue.Nil⟩

def c1State : InterpState :=
  { heap := c1Heap, globals := 0, environment := 1,
    locals := [(Expr.Variable c1VarToken, 0)], output := [] }

/-- C1.  The claim fails on the code: the resolver records depth 0 for a
variable declared and read in the same block (innermost scope), but
`Environment::ancestor` starts the walk at `self.enclosing`, so
`get_at(0, ·)` reads one level above the current environment.  Concretely,
with `a` bound in the current environment (heap index 1) and the resolver
having recorded depth 0, `look_up_variable` skips that binding and reports
`Undefined variable 'a'.` after searching only the parent. -/
theorem c1_get_at_skips_current_environment :
    resolveLocalDepth [[("a", true)]] "a" = some 0 ∧
    mapGet (heapGet c1Heap 1).values "a" = some (Object.Number 1) ∧
    Environment.ancestor c1Heap 1 0 = .ok 0 ∧
    lookUpVariable c1State c1VarToken (Expr.Variable c1VarToken) =
      .error (.Runtime Token.dummy "Undefined variable 'a'.") := by
  refine ⟨rfl, rfl, rfl, rfl⟩

/- ----------------------------------------------------------------------
C7: claimed: unary `-` on a non-Number operand raises a runtime error.
---------------------------------------------------------------------- -/

def c7MinusToken : Token := ⟨TokenType.Minus, "-", 1, LitValue.Nil⟩

/-- C7.  The claim fails on the code: `visit_unary_expr`'s `Minus` arm has no
error branch — a non-number operand falls through to `Object::Nil`, and the
visitor returns `Ok`.  Evaluating `-"x"` yields the ordinary value `nil`,
not a runtime error. -/
theorem c7_unary_minus_on_string_yields_nil :
    evalExpr 2 initialState
      (Expr.Unary c7MinusToken (Expr.Literal (LitValue.String "x"))) =
      (.ok Object.Nil, initialState) := rfl

/- ----------------------------------------------------------------------
C4: claimed: print of a String writes it without quotes; the example
program prints the line `hi there`.
---------------------------------------------------------------------- -/

def c4AToken : Token := ⟨TokenType.Identifier, "a", 1, LitValue.Nil⟩

def c4PlusToken : Token := ⟨TokenType.Plus, "+", 1, LitValue.Nil⟩

/-- The AST of `var a = "hi"; print a + " there";`. -/
def c4Program : List Stmt :=
  [Stmt.Var c4AToken (Expr.Literal (.String "hi")),
   Stmt.Print (Expr.Binary (Expr.Variable c4AToken) c4PlusToken
     (Expr.Literal (.String " there")))]

/-- C4.  The claim fails on the code: `impl fmt::Display for Object` writes
`"{}"` with surrounding quotation marks for the `String` variant, and
`stringify` special-cases only `Nil`, so the example program prints the line
`"hi there"` — with quotes — not `hi there`. -/
theorem c4_print_string_keeps_quotes :
    (interpret 8 initialState c4Program).1.output = ["\"hi there\""] ∧
    ("\"hi there\"" : String) ≠ "hi there" := by
  exact ⟨rfl, by decide⟩

/- ----------------------------------------------------------------------
C8: `a or b` / `a and b` short-circuit and return the deciding operand's
value.
---------------------------------------------------------------------- -/

/-- C8, confirmed.  If evaluating `a` succeeds with value `v` and state
`st1`, then `a or b` returns `(v, st1)` unchanged — `b` never evaluated —
when `v` is truthy and otherwise is exactly the evaluation of `b` from
`st1`; `a and b` symmetrically returns `(v, st1)` when `v` is falsy and
otherwise is exactly the evaluation of `b`.  The result is the deciding
operand's own value, never a coerced boolean
(src/interpreter.rs `visit_logical_expr`). -/
theorem c8_logical_short_circuits_to_deciding_operand (fuel : Nat)
    (st st1 : InterpState) (a b : Expr) (v : Object) (orOp andOp : Token)
    (hor : orOp.token_type = TokenType.Or)
    (hand : andOp.token_type = TokenType.And)
    (ha : evalExpr fuel st a = (.ok v, st1)) :
    (evalExpr (fuel + 1) st (Expr.Logical a orOp b) =
      if isTruthy v then (.ok v, st1) else evalExpr fuel st1 b) ∧
    (evalExpr (fuel + 1) st (Expr.Logical a andOp b) =
      if isTruthy v then evalExpr fuel st1 b else (.ok v, st1)) := by
  constructor
  · show ((match evalExpr fuel st a with
      | (Except.error err, st') => (Except.error err, st')
      | (Except.ok lv, st1) =>
          if orOp.token_type == TokenType.Or then
            if isTruthy lv then (Except.ok lv, st1) else evalExpr fuel st1 b
          else
            if !(isTruthy lv) then (Except.ok lv, st1)
            else evalExpr fuel st1 b) :
        (Except IErr Object) × InterpState) = _
    rw [ha, hor]
    simp
  · show ((match evalExpr fuel st a with
      | (Except.error err, st') => (Except.error err, st')
      | (Except.ok lv, st1) =>
          if andOp.token_type == TokenType.Or then
            if isTruthy lv then (Except.ok lv, st1) else evalExpr fuel st1 b
          else
            if !(isTruthy lv) then (Except.ok lv, st1)
            else evalExpr fuel st1 b) :
        (Except IErr Object) × InterpState) = _
    rw [ha, hand]
    cases h : isTruthy v <;> simp [h]

def c8OrToken : Token := ⟨TokenType.Or, "or", 1, LitValue.Nil⟩

def c8AndToken : Token := ⟨TokenType.And, "and", 1, LitValue.Nil⟩

/-- Witness for C8 at `true or false` and `true and false`. -/
theorem c8_witness :
    evalExpr 1 initialState (Expr.Literal (LitValue.Bool true)) =
      (.ok (Object.Bool true), initialState) ∧
    ((evalExpr 2 initialState
        (Expr.Logical (Expr.Literal (LitValue.Bool true)) c8OrToken
          (Expr.Literal (LitValue.Bool false))) =
      if isTruthy (Object.Bool true) then
        (.ok (Object.Bool true), initialState)
      else
        evalExpr 1 initialState (Expr.Literal (LitValue.Bool false))) ∧
     (evalExpr 2 initialState
        (Expr.Logical (Expr.Literal (LitValue.Bool true)) c8AndToken
          (Expr.Literal (LitValue.Bool false))) =
      if isTruthy (Object.Bool true) then
        evalExpr 1 initialState (Expr.Literal (LitValue.Bool false))
      else
        (.ok (Object.Bool true), initialState))) :=
  ⟨rfl,
   c8_logical_short_circuits_to_deciding_operand 1 initialState initialState
     (Expr.Literal (LitValue.Bool true)) (Expr.Literal (LitValue.Bool false))
     (Object.Bool true) c8OrToken c8AndToken rfl rfl rfl⟩

/- ----------------------------------------------------------------------
C9: blocks push a fresh child environment and restore the previous one on
every exit path, changing nothing else by the push/restore itself.
---------------------------------------------------------------------- -/

/-- C9, confirmed.  (1) `visit_block_stmt` allocates a fresh environment
whose `enclosing` is the entry environment and runs `execute_block` on it;
(2) `execute_block` returns exactly the loop's outcome and state with only
the `environment` field overwritten back to the entry environment — on the
error path (runtime errors and `Return` unwinding alike) and on normal
completion; (3) hence on every exit path (fuel exhaustion included) the
current-environment field equals the one from block entry. -/
theorem c9_block_pushes_and_restores_environment (fuel : Nat)
    (st : InterpState) (statements : List Stmt) :
    (execStmt (fuel + 1) st (Stmt.Block statements) =
       execBlock fuel
         { st with heap := st.heap ++ [⟨some st.environment, []⟩] }
         statements st.heap.length) ∧
    (∀ envId,
       execBlock (fuel + 1) st statements envId =
         ((execSeq fuel { st with environment := envId } statements).1,
          { (execSeq fuel { st with environment := envId } statements).2 with
              environment := st.environment })) ∧
    (∀ envId,
       (execBlock fuel st statements envId).2.environment =
         st.environment) := by
  refine ⟨rfl, ?_, ?_⟩
  · intro envId
    show ((match execSeq fuel { st with environment := envId } statements with
      | (Except.error err, st') =>
          (Except.error err, { st' with environment := st.environment })
      | (Except.ok _, st') =>
          (Except.ok (), { st' with environment := st.environment })) :
        (Except IErr Unit) × InterpState) = _
    rcases h : execSeq fuel { st with environment := envId } statements
      with ⟨r, st'⟩
    cases r <;> simp
  · intro envId
    cases fuel with
    | zero => rfl
    | succ n =>
      show ((match execSeq n { st with environment := envId } statements with
        | (Except.error err, st') =>
            (Except.error err, { st' with environment := st.environment })
        | (Except.ok _, st') =>
            (Except.ok (), { st' with environment := st.environment }) :
          (Except IErr Unit) × InterpState)).2.environment = st.environment
      rcases h : execSeq n { st with environment := envId } statements
        with ⟨r, st'⟩
      cases r <;> simp

/- ----------------------------------------------------------------------
C10: a call evaluates the callee and then all arguments (in order) before
the callable check and the arity check, so both errors fire only after all
argument side effects.
---------------------------------------------------------------------- -/

/-- C10, confirmed.  If the callee evaluates to `v` with state `st1` and the
arguments then evaluate left to right to `vs` with state `st2` (the order is
the definition of `evalArgs`, translated from `visit_call_expr`'s loop),
then both failure modes — `Can only call functions and classes.` for a
non-callable and `Expected N arguments but got M.` for an arity mismatch —
return with exactly the post-arguments state `st2`: every argument side
effect has already happened. -/
theorem c10_call_errors_after_argument_effects (fuel : Nat)
    (st st1 st2 : InterpState) (callee : Expr) (paren : Token)
    (arguments : List Expr) (v : Object) (vs : List Object)
    (hc : evalExpr fuel st callee = (.ok v, st1))
    (ha : evalArgs fuel st1 arguments = (.ok vs, st2)) :
    ((∀ c, v ≠ Object.Callable c) →
       evalExpr (fuel + 1) st (Expr.Call callee paren arguments) =
         (.error (.Runtime paren "Can only call functions and classes."),
          st2)) ∧
    (∀ c, v = Object.Callable c → arguments.length ≠ c.arity →
       evalExpr (fuel + 1) st (Expr.Call callee paren arguments) =
         (.error (.Runtime paren (arityMessage c.arity arguments.length)),
          st2)) := by
  have hstep : evalExpr (fuel + 1) st (Expr.Call callee paren arguments) =
      ((match evalExpr fuel st callee with
        | (Except.error err, st') => (Except.error err, st')
        | (Except.ok calleeV, st1) =>
            match evalArgs fuel st1 arguments with
            | (Except.error err, st') => (Except.error err, st')
            | (Except.ok argVs, st2) =>
                match calleeV with
                | Object.Callable c =>
                    if arguments.length ≠ c.arity then
                      (Except.error (IErr.Runtime paren
                        (arityMessage c.arity arguments.length)), st2)
                    else
                      callCallable fuel st2 c argVs
                | _ =>
                    (Except.error (IErr.Runtime paren
                      "Can only call functions and classes."), st2)) :
        (Except IErr Object) × InterpState) := rfl
  rw [hstep, hc]
  dsimp only
  rw [ha]
  dsimp only
  constructor
  · intro hnc
    cases v with
    | Callable c => exact absurd rfl (hnc c)
    | String s => rfl
    | Number n => rfl
    | Bool b => rfl
    | Nil => rfl
  · intro c hv hne
    subst hv
    simp [hne]

/- ----------------------------------------------------------------------
The tree-walker parser, src/parser.rs, and the driver, src/main.rs.
---------------------------------------------------------------------- -/

/-- src/error.rs `ParseError`.  `ParseError::new` only records line and
message; it does not touch the process-wide `HAD_ERROR` flag (only
`report`, called by the scanner, does). -/
structure ParseError where
  line : Nat
  message : String

/-- src/parser.rs `Parser`: the cloned token vector and the cursor. -/
structure ParserS where
  tokens : List Token
  current : Nat

/-- src/parser.rs `Parser::peek`.  The source panics when the index is out
of range; parser input always ends in an `EOF` token, which the default
also is, so no in-model run reaches the default. -/
def ParserS.peek (p : ParserS) : Token := p.tokens.getD p.current Token.dummy

/-- src/parser.rs `Parser::previous` (same out-of-range remark). -/
def ParserS.previous (p : ParserS) : Token :=
  p.tokens.getD (p.current - 1) Token.dummy

def ParserS.isAtEnd (p : ParserS) : Bool :=
  p.peek.token_type == TokenType.EOF

def ParserS.check (p : ParserS) (t : TokenType) : Bool :=
  if p.isAtEnd then false else p.peek.token_type == t

/-- src/parser.rs `Parser::advance`: step unless at end, return `previous`. -/
def ParserS.advance (p : ParserS) : Token × ParserS :=
  let p' := if !p.isAtEnd then { p with current := p.current + 1 } else p
  (p'.previous, p')

/-- src/parser.rs `Parser::match_token`. -/
def ParserS.matchToken (p : ParserS) : List TokenType → Bool × ParserS
  | [] => (false, p)
  | t :: ts => if p.check t then (true, (p.advance).2) else p.matchToken ts

/-- src/parser.rs `Parser::error`: format the message by token position.
It builds the `ParseError` value only — no global flag is set. -/
def parseErrorAt (token : Token) (message : String) : ParseError :=
  match token.token_type with
  | TokenType.EOF => ⟨token.line, "at end: " ++ message⟩
  | _ => ⟨token.line, "at '" ++ token.lexeme ++ "' " ++ message⟩

/-- src/parser.rs `Parser::consume`. -/
def ParserS.consume (p : ParserS) (token_type : TokenType)
    (message : String) : (Except ParseError Token) × ParserS :=
  if p.check token_type then
    let (t, p') := p.advance
    (.ok t, p')
  else
    (.error (parseErrorAt p.peek message), p)

/-- The statement keywords `synchronize` stops in front of. -/
def syncRecoverable : TokenType → Bool
  | .Class | .Fun | .Var | .For | .If | .While | .Print | .Return => true
  | _ => false

def syncLoop : Nat → ParserS → ParserS
  | 0, p => p
  | fuel + 1, p =>
      if p.isAtEnd then p
      else if p.previous.token_type == TokenType.SemiColon then p
      else if syncRecoverable p.peek.token_type then p
      else syncLoop fuel (p.advance).2

/-- src/parser.rs `Parser::synchronize`: advance once, then discard tokens
until just past a `;` or just before a statement keyword.  (Its `println!`
diagnostics are not modelled.) -/
def ParserS.synchronize (p : ParserS) (fuel : Nat) : ParserS :=
  syncLoop fuel (p.advance).2

/-- Result of a parsing function: Rust's `Result<T, ParseError>` plus the
mutated parser. -/
abbrev PRes (α : Type) := (Except ParseError α) × ParserS

/-- The artificial fuel-exhaustion parse error. -/
def pFuelErr : ParseError := ⟨0, "out of fuel"⟩

mutual

/-- src/parser.rs `Parser::expression`. -/
def pExpression : Nat → ParserS → PRes Expr
  | 0, p => (.error pFuelErr, p)
  | fuel + 1, p => pAssignment fuel p

/-- src/parser.rs `Parser::assignment`. -/
def pAssignment : Nat → ParserS → PRes Expr
  | 0, p => (.error pFuelErr, p)
  | fuel + 1, p =>
      match pOr fuel p with
      | (.error e, p') => (.error e, p')
      | (.ok expr, p1) =>
          match p1.matchToken [TokenType.Equal] with
          | (true, p2) =>
              let equals := p2.previous
              match pAssignment fuel p2 with
              | (.error e, p') => (.error e, p')
              | (.ok value, p3) =>
                  match expr with
                  | Expr.Variable name => (.ok (Expr.Assign name value), p3)
                  | _ =>
                      (.error (parseErrorAt equals
                        "Invalid assignment target."), p3)
          | (false, p2) => (.ok expr, p2)

/-- src/parser.rs `Parser::or`. -/
def pOr : Nat → ParserS → PRes Expr
  | 0, p => (.error pFuelErr, p)
  | fuel + 1, p =>
      match pAnd fuel p with
      | (.error e, p') => (.error e, p')
      | (.ok expr, p1) => pOrLoop fuel expr p1

def pOrLoop : Nat → Expr → ParserS → PRes Expr
  | 0, _, p => (.error pFuelErr, p)
  | fuel + 1, expr, p =>
      match p.matchToken [TokenType.Or] with
      | (false, p1) => (.ok expr, p1)
      | (true, p1) =>
          let operator := p1.previous
          match pAnd fuel p1 with
          | (.error e, p') => (.error e, p')
          | (.ok right, p2) =>
              pOrLoop fuel (Expr.Logical expr operator right) p2

/-- src/parser.rs `Parser::and`. -/
def pAnd : Nat → ParserS → PRes Expr
  | 0, p => (.error pFuelErr, p)
  | fuel + 1, p =>
      match pEquality fuel p with
      | (.error e, p') => (.error e, p')
      | (.ok expr, p1) => pAndLoop fuel expr p1

def pAndLoop : Nat → Expr → ParserS → PRes Expr
  | 0, _, p => (.error pFuelErr, p)
  | fuel + 1, expr, p =>
      match p.matchToken [TokenType.And] with
      | (false, p1) => (.ok expr, p1)
      | (true, p1) =>
          let operator := p1.previous
          match pEquality fuel p1 with
          | (.error e, p') => (.error e, p')
          | (.ok right, p2) =>
              pAndLoop fuel (Expr.Logical expr operator right) p2

/-- src/parser.rs `Parser::equality`. -/
def pEquality : Nat → ParserS → PRes Expr
  | 0, p => (.error pFuelErr, p)
  | fuel + 1, p =>
      match pComparison fuel p with
      | (.error e, p') => (.error e, p')
      | (.ok expr, p1) => pEqualityLoop fuel expr p1

def pEqualityLoop : Nat → Expr → ParserS → PRes Expr
  | 0, _, p => (.error pFuelErr, p)
  | fuel + 1, expr, p =>
      match p.matchToken [TokenType.BangEqual, TokenType.EqualEqual] with
      | (false, p1) => (.ok expr, p1)
      | (true, p1) =>
          let operator := p1.previous
          match pComparison fuel p1 with
          | (.error e, p') => (.error e, p')
          | (.ok right, p2) =>
              pEqualityLoop fuel (Expr.Binary expr operator right) p2

/-- src/parser.rs `Parser::comparison`. -/
def pComparison : Nat → ParserS → PRes Expr
  | 0, p => (.error pFuelErr, p)
  | fuel + 1, p =>
      match pTerm fuel p with
      | (.error e, p') => (.error e, p')
      | (.ok expr, p1) => pComparisonLoop fuel expr p1

def pComparisonLoop : Nat → Expr → ParserS → PRes Expr
  | 0, _, p => (.error pFuelErr, p)
  | fuel + 1, expr, p =>
      match p.matchToken [TokenType.Greater, TokenType.GreaterEqual,
          TokenType.Less, TokenType.LessEqual] with
      | (false, p1) => (.ok expr, p1)
      | (true, p1) =>
          let operator := p1.previous
          match pTerm fuel p1 with
          | (.error e, p') => (.error e, p')
          | (.ok right, p2) =>
              pComparisonLoop fuel (Expr.Binary expr operator right) p2

/-- src/parser.rs `Parser::term`. -/
def pTerm : Nat → ParserS → PRes Expr
  | 0, p => (.error pFuelErr, p)
  | fuel + 1, p =>
      match pFactor fuel p with
      | (.error e, p') => (.error e, p')
      | (.ok expr, p1) => pTermLoop fuel expr p1

def pTermLoop : Nat → Expr → ParserS → PRes Expr
  | 0, _, p => (.error pFuelErr, p)
  | fuel + 1, expr, p =>
      match p.matchToken [TokenType.Minus, TokenType.Plus] with
      | (false, p1) => (.ok expr, p1)
      | (true, p1) =>
          let operator := p1.previous
          match pFactor fuel p1 with
          | (.error e, p') => (.error e, p')
          | (.ok right, p2) =>
              pTermLoop fuel (Expr.Binary expr operator right) p2

/-- src/parser.rs `Parser::factor`. -/
def pFactor : Nat → ParserS → PRes Expr
  | 0, p => (.error pFuelErr, p)
  | fuel + 1, p =>
      match pUnary fuel p with
      | (.error e, p') => (.error e, p')
      | (.ok expr, p1) => pFactorLoop fuel expr p1

def pFactorLoop : Nat → Expr → ParserS → PRes Expr
  | 0, _, p => (.error pFuelErr, p)
  | fuel + 1, expr, p =>
      match p.matchToken [TokenType.Slash, TokenType.Star] with
      | (false, p1) => (.ok expr, p1)
      | (true, p1) =>
          let operator := p1.previous
          match pUnary fuel p1 with
          | (.error e, p') => (.error e, p')
          | (.ok right, p2) =>
              pFactorLoop fuel (Expr.Binary expr operator right) p2

/-- src/parser.rs `Parser::unary` (a `while` whose body always returns,
hence an `if`). -/
def pUnary : Nat → ParserS → PRes Expr
  | 0, p => (.error pFuelErr, p)
  | fuel + 1, p =>
      match p.matchToken [TokenType.Bang, TokenType.Minus] with
      | (true, p1) =>
          let operator := p1.previous
          match pUnary fuel p1 with
          | (.error e, p') => (.error e, p')
          | (.ok right, p2) => (.ok (Expr.Unary operator right), p2)
      | (false, p1) => pPrimary fuel p1

/-- src/parser.rs `Parser::primary`.  (This parser has no call grammar:
`unary` descends directly to `primary`.) -/
def pPrimary : Nat → ParserS → PRes Expr
  | 0, p => (.error pFuelErr, p)
  | fuel + 1, p =>
      match p.matchToken [TokenType.False] with
      | (true, p1) => (.ok (Expr.Literal (LitValue.Bool false)), p1)
      | (false, p1) =>
      match p1.matchToken [TokenType.True] with
      | (true, p2) => (.ok (Expr.Literal (LitValue.Bool true)), p2)
      | (false, p2) =>
      match p2.matchToken [TokenType.Nil] with
      | (true, p3) => (.ok (Expr.Literal LitValue.Nil), p3)
      | (false, p3) =>
      match p3.matchToken [TokenType.Number, TokenType.String] with
      | (true, p4) => (.ok (Expr.Literal p4.previous.literal), p4)
      | (false, p4) =>
      match p4.matchToken [TokenType.Identifier] with
      | (true, p5) => (.ok (Expr.Variable p5.previous), p5)
      | (false, p5) =>
      match p5.matchToken [TokenType.LeftParen] with
      | (true, p6) =>
          match pExpression fuel p6 with
          | (.error e, p') => (.error e, p')
          | (.ok e, p7) =>
              match p7.consume TokenType.RightParen
                  "Expect ')' after expression." with
              | (.error err, p') => (.error err, p')
              | (.ok _, p8) => (.ok (Expr.Grouping e), p8)
      | (false, p6) =>
          (.error (parseErrorAt p6.peek "Expect expression."), p6)

/-- src/parser.rs `Parser::declaration`: on a parse error, synchronize and
yield no statement. -/
def pDeclaration : Nat → ParserS → (Option Stmt) × ParserS
  | 0, p => (none, p)
  | fuel + 1, p =>
      match (match p.matchToken [TokenType.Var] with
             | (true, p1) => pVarDeclaration fuel p1
             | (false, p1) => pStatement fuel p1) with
      | (.ok res, p') => (some res, p')
      | (.error _, p') => (none, p'.synchronize fuel)

/-- src/parser.rs `Parser::statement`. -/
def pStatement : Nat → ParserS → PRes Stmt
  | 0, p => (.error pFuelErr, p)
  | fuel + 1, p =>
      match p.matchToken [TokenType.For] with
      | (true, p1) => pForStatement fuel p1
      | (false, p1) =>
      match p1.matchToken [TokenType.If] with
      | (true, p2) => pIfStatement fuel p2
      | (false, p2) =>
      match p2.matchToken [TokenType.Print] with
      | (true, p3) => pPrintStatement fuel p3
      | (false, p3) =>
      match p3.matchToken [TokenType.While] with
      | (true, p4) => pWhileStatement fuel p4
      | (false, p4) =>
      match p4.matchToken [TokenType.LeftBrace] with
      | (true, p5) =>
          match pBlockLoop fuel [] p5 with
          | (.error e, p') => (.error e, p')
          | (.ok stmts, p6) => (.ok (Stmt.Block stmts), p6)
      | (false, p5) => pExpressionStatement fuel p5

/-- src/parser.rs `Parser::var_declaration`. -/
def pVarDeclaration : Nat → ParserS → PRes Stmt
  | 0, p => (.error pFuelErr, p)
  | fuel + 1, p =>
      match p.consume TokenType.Identifier "Expect variable name." with
      | (.error e, p') => (.error e, p')
      | (.ok name, p1) =>
          match (match p1.matchToken [TokenType.Equal] with
                 | (true, p2) => pExpression fuel p2
                 | (false, p2) =>
                     ((.ok Expr.Nil, p2) : PRes Expr)) with
          | (.error e, p') => (.error e, p')
          | (.ok initializer, p3) =>
              match p3.consume TokenType.SemiColon
                  "Expect ';' after variable declaration." with
              | (.error e, p') => (.error e, p')
              | (.ok _, p4) => (.ok (Stmt.Var name initializer), p4)

/-- src/parser.rs `Parser::for_statement`, with the source's desugaring to
`Block`/`While`. -/
def pForStatement : Nat → ParserS → PRes Stmt
  | 0, p => (.error pFuelErr, p)
  | fuel + 1, p =>
      match p.consume TokenType.LeftParen "Expect '(' after 'for'." with
      | (.error e, p') => (.error e, p')
      | (.ok _, p1) =>
      match (match p1.matchToken [TokenType.SemiColon] with
             | (true, p2) => ((.ok Stmt.Nil, p2) : PRes Stmt)
             | (false, p2) =>
                 match p2.matchToken [TokenType.Var] with
                 | (true, p3) => pVarDeclaration fuel p3
                 | (false, p3) => pExpressionStatement fuel p3) with
      | (.error e, p') => (.error e, p')
      | (.ok initializer, p4) =>
      match (if !(p4.check TokenType.SemiColon) then pExpression fuel p4
             else ((.ok Expr.Nil, p4) : PRes Expr)) with
      | (.error e, p') => (.error e, p')
      | (.ok condition0, p5) =>
      match p5.consume TokenType.SemiColon
          "Expect ';' after loop condition." with
      | (.error e, p') => (.error e, p')
      | (.ok _, p6) =>
      match (if !(p6.check TokenType.RightParen) then pExpression fuel p6
             else ((.ok Expr.Nil, p6) : PRes Expr)) with
      | (.error e, p') => (.error e, p')
      | (.ok increment, p7) =>
      match p7.consume TokenType.RightParen
          "Expect ')' after for clauses." with
      | (.error e, p') => (.error e, p')
      | (.ok _, p8) =>
      match pStatement fuel p8 with
      | (.error e, p') => (.error e, p')
      | (.ok body0, p9) =>
          let body1 :=
            match increment with
            | Expr.Nil => body0
            | inc => Stmt.Block [body0, Stmt.Expression inc]
          let condition :=
            match condition0 with
            | Expr.Nil => Expr.Literal (LitValue.Bool true)
            | c => c
          let body2 := Stmt.While condition body1
          let body3 :=
            match initializer with
            | Stmt.Nil => body2
            | ini => Stmt.Block [ini, body2]
          (.ok body3, p9)

/-- src/parser.rs `Parser::while_statement`. -/
def pWhileStatement : Nat → ParserS → PRes Stmt
  | 0, p => (.error pFuelErr, p)
  | fuel + 1, p =>
      match p.consume TokenType.LeftParen "Expect '(' after 'while'." with
      | (.error e, p') => (.error e, p')
      | (.ok _, p1) =>
      match pExpression fuel p1 with
      | (.error e, p') => (.error e, p')
      | (.ok condition, p2) =>
      match p2.consume TokenType.RightParen "Expect ')' after condition." with
      | (.error e, p') => (.error e, p')
      | (.ok _, p3) =>
      match pStatement fuel p3 with
      | (.error e, p') => (.error e, p')
      | (.ok body, p4) => (.ok (Stmt.While condition body), p4)

/-- src/parser.rs `Parser::if_statement`. -/
def pIfStatement : Nat → ParserS → PRes Stmt
  | 0, p => (.error pFuelErr, p)
  | fuel + 1, p =>
      match p.consume TokenType.LeftParen "Expect '(' after 'if'." with
      | (.error e, p') => (.error e, p')
      | (.ok _, p1) =>
      match pExpression fuel p1 with
      | (.error e, p') => (.error e, p')
      | (.ok condition, p2) =>
      match p2.consume TokenType.RightParen
          "Expect ')' after 'if' condition." with
      | (.error e, p') => (.error e, p')
      | (.ok _, p3) =>
      match pStatement fuel p3 with
      | (.error e, p') => (.error e, p')
      | (.ok then_branch, p4) =>
      match (match p4.matchToken [TokenType.Else] with
             | (true, p5) => pStatement fuel p5
             | (false, p5) => ((.ok Stmt.Nil, p5) : PRes Stmt)) with
      | (.error e, p') => (.error e, p')
      | (.ok else_branch, p6) =>
          (.ok (Stmt.If condition then_branch else_branch), p6)

/-- src/parser.rs `Parser::print_statement`. -/
def pPrintStatement : Nat → ParserS → PRes Stmt
  | 0, p => (.error pFuelErr, p)
  | fuel + 1, p =>
      match pExpression fuel p with
      | (.error e, p') => (.error e, p')
      | (.ok value, p1) =>
      match p1.consume TokenType.SemiColon "Expect ';' after value." with
      | (.error e, p') => (.error e, p')
      | (.ok _, p2) => (.ok (Stmt.Print value), p2)

/-- src/parser.rs `Parser::expression_statement`. -/
def pExpressionStatement : Nat → ParserS → PRes Stmt
  | 0, p => (.error pFuelErr, p)
  | fuel + 1, p =>
      match pExpression fuel p with
      | (.error e, p') => (.error e, p')
      | (.ok expr, p1) =>
      match p1.consume TokenType.SemiColon "Expect ';' after expression." with
      | (.error e, p') => (.error e, p')
      | (.ok _, p2) => (.ok (Stmt.Expression expr), p2)

/-- src/parser.rs `Parser::block`'s loop. -/
def pBlockLoop : Nat → List Stmt → ParserS → PRes (List Stmt)
  | 0, _, p => (.error pFuelErr, p)
  | fuel + 1, acc, p =>
      if !(p.check TokenType.RightBrace) && !p.isAtEnd then
        match pDeclaration fuel p with
        | (some d, p') => pBlockLoop fuel (acc ++ [d]) p'
        | (none, p') => pBlockLoop fuel acc p'
      else
        match p.consume TokenType.RightBrace "Expect '\x7d' after block." with
        | (.error e, p') => (.error e, p')
        | (.ok _, p') => (.ok acc, p')

end

/-- src/parser.rs `Parser::parse`'s loop: collect the declarations that
parsed; errored ones were dropped by `declaration`. -/
def pParseLoop : Nat → List Stmt → ParserS → List Stmt × ParserS
  | 0, acc, p => (acc, p)
  | fuel + 1, acc, p =>
      if p.isAtEnd then (acc, p)
      else
        match pDeclaration fuel p with
        | (some d, p') => pParseLoop fuel (acc ++ [d]) p'
        | (none, p') => pParseLoop fuel acc p'

/-- src/parser.rs `Parser::parse`. -/
def pParse (fuel : Nat) (p : ParserS) : List Stmt × ParserS :=
  pParseLoop fuel [] p

/-- src/main.rs `run`: scanning is not modelled (the token list is the
input); `hadScanError` is the state of the `HAD_ERROR` flag after scanning,
which `run` checks BEFORE parsing.  `Parser::error` builds its `ParseError`
without setting that flag, and `Parser::declaration` swallows the error
after synchronizing, so the parse result is interpreted whether or not
parse errors occurred.  The result is the final interpreter state and the
`HAD_RUNTIME_ERROR` flag; `none` models `run` returning `Err` before
evaluation. -/
def runSource (hadScanError : Bool) (tokens : List Token) (fuel : Nat) :
    Option (InterpState × Bool) :=
  if hadScanError then none
  else
    let (stmts, _) := pParse fuel ⟨tokens, 0⟩
    some (interpret fuel initialState stmts)

/- ----------------------------------------------------------------------
C2: claimed: a parse error in any statement makes compilation fail and the
interpreter run zero statements.
---------------------------------------------------------------------- -/

/-- The tokens of `var 1; print 2;` — the first statement is malformed. -/
def c2Tokens : List Token :=
  [⟨TokenType.Var, "var", 1, LitValue.Nil⟩,
   ⟨TokenType.Number, "1", 1, LitValue.Number 1⟩,
   ⟨TokenType.SemiColon, ";", 1, LitValue.Nil⟩,
   ⟨TokenType.Print, "print", 1, LitValue.Nil⟩,
   ⟨TokenType.Number, "2", 1, LitValue.Number 2⟩,
   ⟨TokenType.SemiColon, ";", 1, LitValue.Nil⟩,
   ⟨TokenType.EOF, "", 1, LitValue.Nil⟩]

/-- C2.  The claim fails on the code: parsing `var 1;` reports a parse
error (`declaration` returns no statement after synchronizing), yet the
program still runs — `main::run` checks `had_error()` before parsing, and
`Parser::error` never sets that flag — so the surviving `print 2;` is
evaluated and prints `2`, with no compilation failure and no runtime
error. -/
theorem c2_parse_error_does_not_stop_evaluation :
    (pDeclaration 20 ⟨c2Tokens, 0⟩).1 = none ∧
    (pParse 20 ⟨c2Tokens, 0⟩).1 =
      [Stmt.Print (Expr.Literal (LitValue.Number 2))] ∧
    (runSource false c2Tokens 20).map (fun r => (r.1.output, r.2)) =
      some (["2"], false) := by
  refine ⟨rfl, rfl, rfl⟩

def c10ParenToken : Token := ⟨TokenType.RightParen, ")", 1, LitValue.Nil⟩

/-- Witness for C10: calling the non-callable `1` with one argument. -/
theorem c10_witness :
    evalExpr 3 initialState
      (Expr.Call (Expr.Literal (LitValue.Number 1)) c10ParenToken
        [Expr.Literal (LitValue.Number 2)]) =
      (.error (.Runtime c10ParenToken
        "Can only call functions and classes."), initialState) :=
  (c10_call_errors_after_argument_effects 2 initialState initialState
      initialState (Expr.Literal (LitValue.Number 1)) c10ParenToken
      [Expr.Literal (LitValue.Number 2)] (Object.Number 1)
      [Object.Number 2] rfl rfl).1
    (fun _ h => Object.noConfusion h)

/- ----------------------------------------------------------------------
The bytecode side: src/chunk.rs, src/value.rs, src/vm.rs and the
constant-pool part of src/compiler.rs.
---------------------------------------------------------------------- -/

/-- Modelled from the spec: the VM value model.  src/value.rs declares only
`Number(f64)`; the `Bool` and `Nil` variants that src/vm.rs `run` itself
constructs, and the `Obj::String` variant, are commented out in the source,
while the spec's data model reads "tagged sum of `Nil`, `Bool(bool)`,
`Number(f64)`, `String(string)`, and `Callable(handle)`".  The variants the
VM touches plus the spec's `String` are modelled (`f64` as `Rat`);
callables never reach this VM. -/
inductive VmValue where
  | Number (n : Rat)
  | Bool (b : Bool)
  | Nil
  | String (s : String)
  deriving DecidableEq, Repr

/-- src/chunk.rs `OpCode`, discriminants in declaration order (that is the
numbering `num_derive::FromPrimitive` assigns). -/
inductive OpCode where
  | OpConstant
  | OpNil
  | OpTrue
  | OpFalse
  | OpPop
  | OpDefineGlobal
  | OpGetGlobal
  | OpSetGlobal
  | OpEqual
  | OpGreater
  | OpLess
  | OpAdd
  | OpSubtract
  | OpMultiply
  | OpDivide
  | OpNot
  | OpNegate
  | OpPrint
  | OpReturn
  deriving DecidableEq, Repr

/-- `OpCode::from_u8` (the `FromPrimitive` derive): inverse of the
discriminant numbering, `None` past 18. -/
def OpCode.from_u8 : Nat → Option OpCode
  | 0 => some .OpConstant
  | 1 => some .OpNil
  | 2 => some .OpTrue
  | 3 => some .OpFalse
  | 4 => some .OpPop
  | 5 => some .OpDefineGlobal
  | 6 => some .OpGetGlobal
  | 7 => some .OpSetGlobal
  | 8 => some .OpEqual
  | 9 => some .OpGreater
  | 10 => some .OpLess
  | 11 => some .OpAdd
  | 12 => some .OpSubtract
  | 13 => some .OpMultiply
  | 14 => some .OpDivide
  | 15 => some .OpNot
  | 16 => some .OpNegate
  | 17 => some .OpPrint
  | 18 => some .OpReturn
  | _ => none

/-- The VM-side `RuntimeError::new(line, message)` of src/error.rs's clox
half (only the runtime variant reaches `VM::run`). -/
structure VmErr where
  line : Nat
  message : String
  deriving DecidableEq, Repr

/-- src/vm.rs `VM`: the chunk's code and line table and constant pool, the
instruction pointer, the value stack (list head = top of the `Vec`),
`instruction_line`, and the stdout lines printed so far. -/
structure VMState where
  code : List Nat
  lines : List Nat
  constants : List VmValue
  ip : Nat
  stack : List VmValue
  instruction_line : Nat
  output : List String
  deriving DecidableEq, Repr

/-- src/vm.rs `VM::current_line` with the `unwrap_or(0)` applied at every
use site. -/
def vmCurrentLine (st : VMState) : Nat := st.lines.getD st.ip 0

/-- src/vm.rs `VM::read_byte`. -/
def vmReadByte (st : VMState) : (Except VmErr Nat) × VMState :=
  match st.code.get? st.ip with
  | some b => (.ok b, { st with ip := st.ip + 1 })
  | none => (.error ⟨vmCurrentLine st, "End of Stream"⟩, st)

/-- src/vm.rs `VM::pop`. -/
def vmPop (st : VMState) : (Except VmErr VmValue) × VMState :=
  match st.stack with
  | v :: rest => (.ok v, { st with stack := rest })
  | [] => (.error ⟨st.instruction_line, "No value on stack"⟩, st)

def vmPush (st : VMState) (v : VmValue) : VMState :=
  { st with stack := v :: st.stack }

/-- src/vm.rs `VM::is_falsey`. -/
def vmIsFalsey : VmValue → Bool
  | .Bool b => !b
  | .Nil => true
  | _ => false

/-- src/vm.rs `VM::values_equal`. -/
def vmValuesEqual (a b : VmValue) : Bool := a == b

/-- src/vm.rs `VM::read_constant`. -/
def vmReadConstant (st : VMState) : (Except VmErr VmValue) × VMState :=
  match vmReadByte st with
  | (.error e, st') => (.error e, st')
  | (.ok position, st') =>
      match st'.constants.get? position with
      | some c => (.ok c, st')
      | none => (.error ⟨vmCurrentLine st', "Failed to get constant"⟩, st')

/-- `println!("{}", value)` in the `OpReturn` arm: src/value.rs implements
`Display` only for `Number` (integral values print with no decimal point;
`Rat` stands in for `f64`); the other variants' rendering is modelled from
the spec — "strings print unquoted, `nil` prints as `nil`, booleans as
`true`/`false`". -/
def vmDisplay : VmValue → String
  | .Number n => numberToString n
  | .Bool b => if b then "true" else "false"
  | .Nil => "nil"
  | .String s => s

/-- The outcome of one iteration of `VM::run`'s loop: `halt` for the arms
that `return`, `next` for falling through to the next iteration. -/
inductive StepResult where
  | halt (r : Except VmErr Unit) (st : VMState)
  | next (st : VMState)
  deriving Repr

/-- One iteration of src/vm.rs `VM::run`'s fetch–decode–execute loop,
translated arm by arm.  The listed arms are exactly the source's; every
other decoded instruction — `OpPop`, `OpDefineGlobal`, `OpGetGlobal`,
`OpSetGlobal` and notably `OpPrint`, as well as an undecodable byte —
falls into the source's `_ => {}` arm and does nothing. -/
def vmStep (st0 : VMState) : StepResult :=
  let st := { st0 with instruction_line := st0.lines.getD st0.ip 0 }
  match vmReadByte st with
  | (.error e, st') => .halt (.error e) st'
  | (.ok instruction, st') =>
      match OpCode.from_u8 instruction with
      | some OpCode.OpReturn =>
          match vmPop st' with
          | (.error e, st2) => .halt (.error e) st2
          | (.ok v, st2) =>
              .halt (.ok ()) { st2 with output := st2.output ++ [vmDisplay v] }
      | some OpCode.OpNegate =>
          match vmPop st' with
          | (.error e, st2) => .halt (.error e) st2
          | (.ok value, st2) =>
              match value with
              | VmValue.Number num => .next (vmPush st2 (VmValue.Number (-num)))
              | v =>
                  .halt (.error ⟨st2.instruction_line,
                    "Cannot negate non number"⟩) (vmPush st2 v)
      | some OpCode.OpAdd =>
          match vmPop st' with
          | (.error e, st2) => .halt (.error e) st2
          | (.ok b, st2) =>
              match vmPop st2 with
              | (.error e, st3) => .halt (.error e) st3
              | (.ok a, st3) =>
                  match a, b with
                  | VmValue.Number x, VmValue.Number y =>
                      .next (vmPush st3 (VmValue.Number (x + y)))
                  | _, _ =>
                      .halt (.error ⟨st3.instruction_line,
                        "Cannot add two non numbers"⟩) st3
      | some OpCode.OpSubtract =>
          match vmPop st' with
          | (.error e, st2) => .halt (.error e) st2
          | (.ok b, st2) =>
              match vmPop st2 with
              | (.error e, st3) => .halt (.error e) st3
              | (.ok a, st3) =>
                  match a, b with
                  | VmValue.Number x, VmValue.Number y =>
                      .next (vmPush st3 (VmValue.Number (x - y)))
                  | _, _ =>
                      .halt (.error ⟨st3.instruction_line,
                        "Cannot subtract two non numbers"⟩) st3
      | some OpCode.OpDivide =>
          match vmPop st' with
          | (.error e, st2) => .halt (.error e) st2
          | (.ok b, st2) =>
              match vmPop st2 with
              | (.error e, st3) => .halt (.error e) st3
              | (.ok a, st3) =>
                  match a, b with
                  | VmValue.Number x, VmValue.Number y =>
                      .next (vmPush st3 (VmValue.Number (x / y)))
                  | _, _ =>
                      .halt (.error ⟨st3.instruction_line,
                        "Cannot subtract two non numbers"⟩) st3
      | some OpCode.OpMultiply =>
          match vmPop st' with
          | (.error e, st2) => .halt (.error e) st2
          | (.ok b, st2) =>
              match vmPop st2 with
              | (.error e, st3) => .halt (.error e) st3
              | (.ok a, st3) =>
                  match a, b with
                  | VmValue.Number x, VmValue.Number y =>
                      .next (vmPush st3 (VmValue.Number (x * y)))
                  | _, _ =>
                      .halt (.error ⟨st3.instruction_line,
                        "Cannot subtract two non numbers"⟩) st3
      | some OpCode.OpGreater =>
          match vmPop st' with
          | (.error e, st2) => .halt (.error e) st2
          | (.ok b, st2) =>
              match vmPop st2 with
              | (.error e, st3) => .halt (.error e) st3
              | (.ok a, st3) =>
                  match a, b with
                  | VmValue.Number x, VmValue.Number y =>
                      .next (vmPush st3 (VmValue.Bool (decide (x > y))))
                  | _, _ =>
                      .halt (.error ⟨st3.instruction_line,
                        "Cannot compare two non numbers"⟩) st3
      | some OpCode.OpLess =>
          match vmPop st' with
          | (.error e, st2) => .halt (.error e) st2
          | (.ok b, st2) =>
              match vmPop st2 with
              | (.error e, st3) => .halt (.error e) st3
              | (.ok a, st3) =>
                  match a, b with
                  | VmValue.Number x, VmValue.Number y =>
                      .next (vmPush st3 (VmValue.Bool (decide (x < y))))
                  | _, _ =>
                      .halt (.error ⟨st3.instruction_line,
                        "Cannot compare two non numbers"⟩) st3
      | some OpCode.OpConstant =>
          match vmReadConstant st' with
          | (.error e, st2) => .halt (.error e) st2
          | (.ok constant, st2) => .next (vmPush st2 constant)
      | some OpCode.OpNil => .next (vmPush st' VmValue.Nil)
      | some OpCode.OpTrue => .next (vmPush st' (VmValue.Bool true))
      | some OpCode.OpFalse => .next (vmPush st' (VmValue.Bool false))
      | some OpCode.OpNot =>
          match vmPop st' with
          | (.error e, st2) => .halt (.error e) st2
          | (.ok val, st2) => .next (vmPush st2 (VmValue.Bool (vmIsFalsey val)))
      | some OpCode.OpEqual =>
          match vmPop st' with
          | (.error e, st2) => .halt (.error e) st2
          | (.ok a, st2) =>
              match vmPop st2 with
              | (.error e, st3) => .halt (.error e) st3
              | (.ok b, st3) =>
                  .next (vmPush st3 (VmValue.Bool (vmValuesEqual a b)))
      | _ => .next st'

/-- src/vm.rs `VM::run` as the iterated step, bounded by fuel (the source
loops until a `return`; no theorem below relies on a fuel-exhausted run). -/
def vmRun : Nat → VMState → (Except VmErr Unit) × VMState
  | 0, st => (.error ⟨st.instruction_line, "out of fuel"⟩, st)
  | fuel + 1, st =>
      match vmStep st with
      | .halt r st' => (r, st')
      | .next st' => vmRun fuel st'

/- ----------------------------------------------------------------------
C3: claimed: fetching OpPrint pops the top of the stack and prints it with
a newline; the stack shrinks by one.
---------------------------------------------------------------------- -/

/-- The chunk the compiler emits for `print 7;`: `OpConstant 0`, `OpPrint`,
`OpReturn`, constant pool `[7]`. -/
def c3State : VMState :=
  { code := [0, 0, 17, 18], lines := [1, 1, 1, 1],
    constants := [VmValue.Number 7], ip := 0, stack := [],
    instruction_line := 0, output := [] }

/-- C3.  The claim fails on the code: `VM::run` has no `OpPrint` arm, so a
fetched `OpPrint` falls into `_ => {}` — the stack is unchanged, nothing is
printed.  At the `print 7;` chunk, stepping the fetched `OpPrint` leaves
the pushed `7` on the stack and the output empty; the one line the full run
does produce (`7`) is printed by the `OpReturn` arm, which pops. -/
theorem c3_opprint_is_ignored :
    OpCode.from_u8 17 = some OpCode.OpPrint ∧
    vmStep { c3State with ip := 2, stack := [VmValue.Number 7] } =
      .next { c3State with
        ip := 3
        stack := [VmValue.Number 7]
        instruction_line := 1 } ∧
    vmRun 10 c3State =
      (.ok (), { c3State with
        ip := 4
        stack := []
        instruction_line := 1
        output := ["7"] }) := by
  refine ⟨rfl, rfl, rfl⟩

/- ----------------------------------------------------------------------
C5: claimed: OpAdd on two Strings pushes their concatenation; a runtime
error only when the operands are neither two Numbers nor two Strings.
---------------------------------------------------------------------- -/

/-- An `OpAdd` instruction facing the strings `"hi"` and `" there"`
(pushed in that order, so `" there"` is on top). -/
def c5State : VMState :=
  { code := [11], lines := [1], constants := [], ip := 0,
    stack := [VmValue.String " there", VmValue.String "hi"],
    instruction_line := 0, output := [] }

/-- C5.  The claim fails on the code: the `OpAdd` arm matches only
`(Number, Number)` and sends every other pair — two strings included — to
the runtime error `Cannot add two non numbers`; no concatenation branch
exists (and src/value.rs's string variant is itself commented out). -/
theorem c5_add_two_strings_raises_error :
    vmStep c5State =
      .halt (.error ⟨1, "Cannot add two non numbers"⟩)
        { c5State with ip := 1, stack := [], instruction_line := 1 } ∧
    vmStep c5State ≠
      .next (vmPush { c5State with ip := 1, instruction_line := 1 }
        (VmValue.String "hi there")) := by
  refine ⟨rfl, fun h => ?_⟩
  rw [(rfl : vmStep c5State =
    .halt (.error ⟨1, "Cannot add two non numbers"⟩)
      { c5State with ip := 1, stack := [], instruction_line := 1 })] at h
  exact StepResult.noConfusion h

/- ----------------------------------------------------------------------
C6: claimed: emitted constant indices equal the pool position, and a pool
index that does not fit one byte reports "Too many constants in one
chunk.".
---------------------------------------------------------------------- -/

/-- The compiler state `make_constant` touches: the current chunk's
constant pool and the clox parser's `had_error`/`panic_mode` flags (the
clox `Parser` struct is not under src/; src/compiler.rs `error_at` writes
exactly these two flags). -/
structure CompilerFlags where
  constants : List VmValue
  had_error : Bool
  panic_mode : Bool
  deriving DecidableEq, Repr

/-- src/chunk.rs `Chunk::add_constant`: push, then return
`constants.len() - 1` — the true position, an unbounded `usize`. -/
def Chunk.add_constant (constants : List VmValue) (value : VmValue) :
    List VmValue × Nat :=
  (constants ++ [value], constants.length)

/-- src/compiler.rs `Compiler::error` → `error_at`: suppressed while in
panic mode, else it enters panic mode and sets `had_error` (the stderr
text is not modelled). -/
def Compiler.reportError (st : CompilerFlags) : CompilerFlags :=
  if st.panic_mode then st
  else { st with panic_mode := true, had_error := true }

/-- src/compiler.rs `Compiler::make_constant`.  The index from
`add_constant` is cast `as u8` — truncation modulo 256 — before the guard,
and the guard then compares the already-truncated byte with `u8::MAX`,
which can never be exceeded. -/
def Compiler.make_constant (st : CompilerFlags) (value : VmValue) :
    Nat × CompilerFlags :=
  let (constants', index) := Chunk.add_constant st.constants value
  let constant := index % 256
  if constant > 255 then
    (0, Compiler.reportError { st with constants := constants' })
  else
    (constant, { st with constants := constants' })

/-- A constant pool already holding 256 constants, no error reported. -/
def c6FullPool : CompilerFlags :=
  { constants := List.replicate 256 (VmValue.Number 0),
    had_error := false, panic_mode := false }

set_option maxRecDepth 4000 in
/-- C6.  The claim fails on the code: adding the 257th constant puts it at
true position 256, but `make_constant` emits `256 as u8 = 0` — a silently
truncated index — and, because the guard tests the truncated byte, the
`Too many constants in one chunk.` error is never reported (`had_error`
stays false). -/
theorem c6_constant_index_silently_truncates :
    (Chunk.add_constant c6FullPool.constants (VmValue.Number 7)).2 = 256 ∧
    (Compiler.make_constant c6FullPool (VmValue.Number 7)).1 = 0 ∧
    (Compiler.make_constant c6FullPool (VmValue.Number 7)).2.had_error
      = false := by
  refine ⟨rfl, rfl, rfl⟩

end Lox
